import Mathlib

/-!
Verification development for the lending-rate tracker `kinri.py`.

The program keeps a SQLite table `rates (date TEXT, bank_name TEXT, rate REAL,
UNIQUE(date, bank_name))`, seeds five years of dummy data, optionally ingests a
fixed set of latest rates, loads all rows ordered by date, resamples the
resulting dataframe by week, month or year (arithmetic mean per calendar
bucket, as pandas `groupby(bank).resample(freq, on=date).mean()` does), draws a
chart and shows the latest value per bank.

Dates are embedded as rata-die day numbers (day 1 = 0001-01-01, a Monday, in
the proleptic Gregorian calendar); the text dates `YYYY-MM-DD` of the store
order exactly like their day numbers.  Rates are embedded as rationals; a
dataframe cell may be NaN (pandas emits NaN means for empty buckets), which is
embedded as `Option ℚ` with `none` for NaN.
-/

/-- A persisted row of the `rates` table: (date, bank_name, rate). -/
structure SRow where
  date : Nat
  entity : String
  rate : ℚ
deriving DecidableEq

/-- A dataframe row after loading / resampling; `rate = none` embeds NaN. -/
structure Row where
  date : Nat
  entity : String
  rate : Option ℚ
deriving DecidableEq

/-- The four radio-button granularities 日足/週足/月足/年足 of the app. -/
inductive Period where
  | day
  | week
  | month
  | year
deriving DecidableEq

/-- Gregorian leap year. -/
def isLeap (y : Nat) : Bool :=
  (y % 4 == 0 && y % 100 != 0) || (y % 400 == 0)

/-- Number of days of month `m` of year `y`. -/
def daysInMonth (y m : Nat) : Nat :=
  if m = 2 then (if isLeap y then 29 else 28)
  else if m = 4 ∨ m = 6 ∨ m = 9 ∨ m = 11 then 30
  else 31

/-- Completed 400-year eras before the day (eras start on March 1 of years
divisible by 400; day 0 of the era count is 0000-03-01, i.e. rata die −305). -/
def cfdEra (n : Nat) : Nat := (n + 305) / 146097

/-- Day-of-era of a rata-die day number. -/
def cfdDoe (n : Nat) : Nat := (n + 305) % 146097

/-- Year-of-era (0..399, March-based) of a rata-die day number. -/
def cfdYoe (n : Nat) : Nat :=
  (cfdDoe n - cfdDoe n / 1460 + cfdDoe n / 36524 - cfdDoe n / 146096) / 365

/-- Day-of-year (0-based, year starting March 1) of a rata-die day number. -/
def cfdDoy (n : Nat) : Nat :=
  cfdDoe n - (365 * cfdYoe n + cfdYoe n / 4 - cfdYoe n / 100)

/-- March-based month (0 = March .. 11 = February) of a rata-die day number. -/
def cfdMp (n : Nat) : Nat := (5 * cfdDoy n + 2) / 153

/-- Civil day-of-month of a rata-die day number. -/
def cfdD (n : Nat) : Nat := cfdDoy n - (153 * cfdMp n + 2) / 5 + 1

/-- Civil month (1..12) of a rata-die day number. -/
def cfdM (n : Nat) : Nat := if cfdMp n < 10 then cfdMp n + 3 else cfdMp n - 9

/-- Civil (proleptic Gregorian) date from a rata-die day number
(day 1 = 0001-01-01).  Standard era-based conversion. -/
def civilFromDays (n : Nat) : Nat × Nat × Nat :=
  (if cfdM n ≤ 2 then 400 * cfdEra n + cfdYoe n + 1 else 400 * cfdEra n + cfdYoe n,
   cfdM n, cfdD n)

/-- Rata-die day number from a civil date (inverse of `civilFromDays` on
valid dates of year ≥ 1). -/
def daysFromCivil (y m d : Nat) : Nat :=
  let y2 := if m ≤ 2 then y - 1 else y
  let era := y2 / 400
  let yoe := y2 % 400
  let mp := if m ≤ 2 then m + 9 else m - 3
  let doy := (153 * mp + 2) / 5 + d - 1
  era * 146097 + (yoe * 365 + yoe / 4 - yoe / 100 + doy) - 305

/-- Calendar-year component of a day number. -/
def yearIdx (n : Nat) : Nat := (civilFromDays n).1

/-- Linearised calendar-month index (`12 * year + (month - 1)`) of a day
number. -/
def monthIdx (n : Nat) : Nat :=
  12 * (civilFromDays n).1 + ((civilFromDays n).2.1 - 1)

/-- The calendar bucket a day number falls into for each granularity: the day
itself, the Monday-to-Sunday week (pandas weekly bins `W` end on Sunday, which
coincide with ISO weeks as sets of days), the calendar month, the calendar
year. -/
def bucketIdx : Period → Nat → Nat
  | .day, n => n
  | .week, n => (n - 1) / 7
  | .month, n => monthIdx n
  | .year, n => yearIdx n

/-- The date label pandas gives an output bucket: the day itself, the Sunday
ending the week, the last day of the month, December 31. -/
def bucketLabel : Period → Nat → Nat
  | .day, b => b
  | .week, b => 7 * b + 7
  | .month, b => daysFromCivil (b / 12) (b % 12 + 1) (daysInMonth (b / 12) (b % 12 + 1))
  | .year, b => daysFromCivil b 12 31

/-- NaN-skipping arithmetic mean of a column, as pandas `mean()` computes it:
the mean of the non-NaN entries, or NaN when there is none. -/
def meanOpt (rs : List (Option ℚ)) : Option ℚ :=
  let vs := rs.filterMap id
  if vs.isEmpty then none else some (vs.sum / vs.length)

/-- Minimum of a list of naturals. -/
def listMin : List Nat → Option Nat
  | [] => none
  | n :: ns => match listMin ns with
    | none => some n
    | some m => some (min n m)

/-- Maximum of a list of naturals. -/
def listMax : List Nat → Option Nat
  | [] => none
  | n :: ns => match listMax ns with
    | none => some n
    | some m => some (max n m)

/-- The rows of one bank (`df[df.bank_name == e]`). -/
def entityRows (df : List Row) (e : String) : List Row :=
  df.filter (fun r => r.entity = e)

/-- The rows of a group that fall in calendar bucket `b`. -/
def bucketRows (p : Period) (rows : List Row) (b : Nat) : List Row :=
  rows.filter (fun r => bucketIdx p r.date = b)

/-- Comparison of entity names (pandas `groupby` sorts group keys). -/
def strLe (a b : String) : Prop := a ≤ b

instance : DecidableRel strLe := fun a b => inferInstanceAs (Decidable (a ≤ b))

instance : IsTotal String strLe := ⟨fun a b => le_total a b⟩

instance : IsTrans String strLe := ⟨fun _ _ _ h h2 => le_trans h h2⟩

/-- The sorted list of distinct bank names of a dataframe, the groups of
`df.groupby(bank_name)` in the order pandas produces them. -/
def entities (df : List Row) : List String :=
  List.insertionSort strLe (df.map Row.entity).dedup

/-- One bank's part of `df.groupby(bank_name).resample(freq, on=date).mean()`:
pandas emits one row per calendar bucket from the bucket of the bank's first
observation to the bucket of its last, labelling each bucket with its end date
and averaging the bucket's rates (NaN when the bucket is empty). -/
def resampleEntity (p : Period) (e : String) (df : List Row) : List Row :=
  match listMin ((entityRows df e).map (fun r => bucketIdx p r.date)),
        listMax ((entityRows df e).map (fun r => bucketIdx p r.date)) with
  | some lo, some hi =>
      (List.range (hi + 1 - lo)).map (fun i =>
        { date := bucketLabel p (lo + i), entity := e,
          rate := meanOpt ((bucketRows p (entityRows df e) (lo + i)).map Row.rate) })
  | _, _ => []

/-- The resampling step of `main`: the 日足 branch leaves the dataframe
untouched; 週足/月足/年足 group by bank and average per calendar bucket. -/
def resample (df : List Row) (p : Period) : List Row :=
  match p with
  | .day => df
  | _ => (entities df).flatMap (fun e => resampleEntity p e df)

/-- Date-order on stored rows (`ORDER BY date ASC`; the `YYYY-MM-DD` text
column orders exactly like day numbers). -/
def dateLe (a b : SRow) : Prop := a.date ≤ b.date

instance : DecidableRel dateLe := fun a b => inferInstanceAs (Decidable (a.date ≤ b.date))

instance : IsTotal SRow dateLe := ⟨fun a b => Nat.le_total a.date b.date⟩

instance : IsTrans SRow dateLe := ⟨fun _ _ _ h h2 => Nat.le_trans h h2⟩

/-- `SELECT * FROM rates ORDER BY date ASC`: every stored row, sorted by date
ascending (a stable sort is one admissible realisation of the unspecified
order among equal dates). -/
def loadQuery (store : List SRow) : List SRow :=
  List.insertionSort dateLe store

/-- Date-order on dataframe rows (`df.sort_values(date)`). -/
def rdateLe (a b : Row) : Prop := a.date ≤ b.date

instance : DecidableRel rdateLe := fun a b => inferInstanceAs (Decidable (a.date ≤ b.date))

instance : IsTotal Row rdateLe := ⟨fun a b => Nat.le_total a.date b.date⟩

instance : IsTrans Row rdateLe := ⟨fun _ _ _ h h2 => Nat.le_trans h h2⟩

/-- Keep, for each entity, the last of its rows in list order (what
`groupby(bank_name).tail(1)` selects). -/
def keepLastByEntity : List Row → List Row
  | [] => []
  | x :: xs =>
      if xs.any (fun r => r.entity == x.entity) then keepLastByEntity xs
      else x :: keepLastByEntity xs

/-- `df.sort_values(date).groupby(bank_name).tail(1)`: the most recent row of
each bank of the displayed table. -/
def latestPerEntity (df : List Row) : List Row :=
  keepLastByEntity (List.insertionSort rdateLe df)

/-- Does the store already hold a row with this (date, entity) key? -/
def hasKey (s : List SRow) (d : Nat) (e : String) : Bool :=
  s.any (fun r => r.date == d && r.entity == e)

/-- `INSERT OR IGNORE` of one row into the `rates` table: the row is appended
unless a row with the same `(date, bank_name)` key is already present
(the table's `UNIQUE(date, bank_name)` constraint). -/
def insertOrIgnore (s : List SRow) (r : SRow) : List SRow :=
  if hasKey s r.date r.entity then s else s ++ [r]

/-- `executemany("INSERT OR IGNORE INTO rates VALUES (?,?,?)", rows)`. -/
def insertMany (s : List SRow) (rows : List SRow) : List SRow :=
  rows.foldl insertOrIgnore s

/-- At most one stored row per `(date, bank_name)` key. -/
def UniqueKeys (s : List SRow) : Prop :=
  List.Pairwise (fun a b => ¬(a.date = b.date ∧ a.entity = b.entity)) s

/-- At most one dataframe row per `(date, bank_name)` key (what a dataframe
loaded from the store always satisfies, by the table's UNIQUE constraint). -/
def UniqueRowKeys (df : List Row) : Prop :=
  List.Pairwise (fun a b => ¬(a.date = b.date ∧ a.entity = b.entity)) df

/-- Python `round` on a rational: round half to even (banker's rounding). -/
def pyRound (x : ℚ) : ℤ :=
  if x - ⌊x⌋ < 1 / 2 then ⌊x⌋
  else if 1 / 2 < x - ⌊x⌋ then ⌊x⌋ + 1
  else if ⌊x⌋ % 2 = 0 then ⌊x⌋ else ⌊x⌋ + 1

/-- Python `round(x, 3)`. -/
def pyRound3 (x : ℚ) : ℚ := (pyRound (x * 1000) : ℚ) / 1000

/-- One seeded rate: `round(max(0.1, base_rate + trend + noise), 3)` with
`trend = i * 0.00005` and a random `noise`. -/
def seededRate (base trend noise : ℚ) : ℚ :=
  pyRound3 (max (1 / 10) (base + trend + noise))

/-- The four banks and their base lending rates hard-coded in
`seed_initial_data`. -/
def banks : List (String × ℚ) :=
  [("日銀(基準)", 1475 / 1000),
   ("三菱UFJ(変動)", 345 / 1000),
   ("横浜銀行(変動)", 425 / 1000),
   ("城北信用金庫(変動)", 625 / 1000)]

/-- The records built by `seed_initial_data`: 1826 days starting at
`start_date`, one row per bank per day, with rate
`round(max(0.1, base + i*0.00005 + noise), 3)`.  The normal noise draw is an
arbitrary function of the day index and the bank. -/
def seedRecords (noise : Nat → String → ℚ) (startDate : Nat) : List SRow :=
  (List.range 1826).flatMap (fun i =>
    banks.map (fun b =>
      { date := startDate + i, entity := b.1,
        rate := seededRate b.2 (i * (5 / 100000)) (noise i b.1) }))

/-- The fixed sample rows `fetch_latest_lending_rates` returns for today. -/
def fetchLatestLendingRates (today : Nat) : List SRow :=
  [{ date := today, entity := "日銀(基準)", rate := 1475 / 1000 },
   { date := today, entity := "三菱UFJ(変動)", rate := 345 / 1000 },
   { date := today, entity := "横浜銀行(変動)", rate := 425 / 1000 },
   { date := today, entity := "城北信用金庫(変動)", rate := 625 / 1000 }]

/-- A loaded store row as a dataframe row (`read_sql_query` keeps every rate,
so no cell is NaN). -/
def toRow (r : SRow) : Row :=
  { date := r.date, entity := r.entity, rate := some r.rate }

/-- Modelled from the spec: src/kinri.py contains no Personal Rate Calculator;
the spec's DiscountConfig is the user-chosen base entity and non-negative
discount amount. -/
structure DiscountConfig where
  baseEntity : String
  discountAmount : ℚ

/-- Modelled from the spec: the fixed label of the derived personal-rate
series. -/
def derivedLabel : String := "My Rate"

/-- Modelled from the spec: src/kinri.py contains no Personal Rate Calculator;
`derive` is the spec's contract — for each observation of the base entity,
emit an observation with the same date, the fixed derived label, and rate
`max(0, rate − discountAmount)`. -/
def derive (series : List SRow) (cfg : DiscountConfig) : List SRow :=
  (series.filter (fun o => o.entity = cfg.baseEntity)).map (fun o =>
    { date := o.date, entity := derivedLabel,
      rate := max 0 (o.rate - cfg.discountAmount) })

/-- Outcome of one run of the display part of `main`. -/
inductive RenderOutcome where
  | chart (table : List Row) (latest : List Row)
  | noData
  | uncaught (e : String)
deriving DecidableEq

/-- The load-resample-present part of `main`, as a function of the result of
the database read: `main` wraps the read in no try/except, so a raising read
leaves `main` with an uncaught exception; otherwise the dataframe is
resampled, and an empty result shows the データがありません error while a
non-empty one draws the chart and the latest-rate cards. -/
def runMain (loadResult : Except String (List SRow)) (p : Period) : RenderOutcome :=
  match loadResult with
  | .error e => .uncaught e
  | .ok rows =>
      let df := (loadQuery rows).map toRow
      let rdf := resample df p
      if rdf.isEmpty then .noData
      else .chart rdf (latestPerEntity rdf)

/-! ## Calendar lemmas -/

theorem cfd_at (n e0 w doy : Nat) (hw : w < 400) (hdoy : doy ≤ 365)
    (hn : n + 305 = 146097 * e0 + (365 * w + w / 4 - w / 100 + doy))
    (hyoe : ((365 * w + w / 4 - w / 100 + doy) - (365 * w + w / 4 - w / 100 + doy) / 1460 +
             (365 * w + w / 4 - w / 100 + doy) / 36524 -
             (365 * w + w / 4 - w / 100 + doy) / 146096) / 365 = w) :
    civilFromDays n =
      (if (5 * doy + 2) / 153 < 10 then 400 * e0 + w else 400 * e0 + w + 1,
       if (5 * doy + 2) / 153 < 10 then (5 * doy + 2) / 153 + 3 else (5 * doy + 2) / 153 - 9,
       doy - (153 * ((5 * doy + 2) / 153) + 2) / 5 + 1) := by
  have h1 : cfdEra n = e0 := by unfold cfdEra; omega
  have h2 : cfdDoe n = 365 * w + w / 4 - w / 100 + doy := by unfold cfdDoe; omega
  have h3 : cfdYoe n = w := by unfold cfdYoe; rw [h2]; exact hyoe
  have h4 : cfdDoy n = doy := by unfold cfdDoy; rw [h2, h3]; omega
  have h5 : cfdMp n = (5 * doy + 2) / 153 := by unfold cfdMp; rw [h4]
  have h6 : cfdD n = doy - (153 * ((5 * doy + 2) / 153) + 2) / 5 + 1 := by
    unfold cfdD; rw [h4, h5]
  have h7 : cfdM n = if (5 * doy + 2) / 153 < 10 then (5 * doy + 2) / 153 + 3
      else (5 * doy + 2) / 153 - 9 := by
    unfold cfdM; rw [h5]
  unfold civilFromDays
  rw [h7, h6, h1, h3]
  have hmpb : (5 * doy + 2) / 153 ≤ 11 := by omega
  split_ifs <;> first | rfl | (exfalso; omega)

/-- On all 400 year-of-era values, the year-of-era formula recovers the year
at day-of-year 364 (the last day of a 365-day March-based year). -/
theorem yoe364 (w : Nat) (hw : w < 400) :
    ((365 * w + w / 4 - w / 100 + 364) - (365 * w + w / 4 - w / 100 + 364) / 1460 +
     (365 * w + w / 4 - w / 100 + 364) / 36524 -
     (365 * w + w / 4 - w / 100 + 364) / 146096) / 365 = w := by
  interval_cases w <;> omega

/-- On the year-of-era values preceding a leap year, the year-of-era formula
recovers the year at day-of-year 365 (a leap day). -/
theorem yoe365 (w : Nat) (hw : w < 400) (h4 : w % 4 = 3) (hv : w % 100 ≠ 99 ∨ w = 399) :
    ((365 * w + w / 4 - w / 100 + 365) - (365 * w + w / 4 - w / 100 + 365) / 1460 +
     (365 * w + w / 4 - w / 100 + 365) / 36524 -
     (365 * w + w / 4 - w / 100 + 365) / 146096) / 365 = w := by
  interval_cases w <;> omega

/-- Round-trip of the civil conversions at the last day of any month of any
year ≥ 1 (and at 0000-12-31, day 0). -/
theorem monthEnd_civil (y m : Nat) (hm1 : 1 ≤ m) (hm : m ≤ 12) (hy : 1 ≤ y ∨ m = 12) :
    civilFromDays (daysFromCivil y m (daysInMonth y m)) = (y, m, daysInMonth y m) := by
  interval_cases m
  · have hdim : daysInMonth y 1 = 31 := by
      unfold daysInMonth isLeap; norm_num
    have hn0 : daysFromCivil y 1 31 =
        (y - 1) / 400 * 146097 + ((y - 1) % 400 * 365 + (y - 1) % 400 / 4 - (y - 1) % 400 / 100 + 336) - 305 := by
      unfold daysFromCivil; norm_num
    have hev := cfd_at ((y - 1) / 400 * 146097 + ((y - 1) % 400 * 365 + (y - 1) % 400 / 4 - (y - 1) % 400 / 100 + 336) - 305)
      ((y - 1) / 400) ((y - 1) % 400) 336 (by omega) (by norm_num) (by omega)
      (by omega)
    rw [hdim, hn0, hev]
    norm_num [Prod.mk.injEq]
    omega
  · by_cases hl : isLeap y = true
    · have hl2 := hl
      unfold isLeap at hl2
      simp only [Bool.or_eq_true, Bool.and_eq_true, beq_iff_eq, bne_iff_ne, decide_eq_true_eq] at hl2
      have hdim : daysInMonth y 2 = 29 := by
        unfold daysInMonth; simp [hl]
      have hn0 : daysFromCivil y 2 29 =
          (y - 1) / 400 * 146097 + ((y - 1) % 400 * 365 + (y - 1) % 400 / 4 - (y - 1) % 400 / 100 + 365) - 305 := by
        unfold daysFromCivil; norm_num
      have hev := cfd_at ((y - 1) / 400 * 146097 + ((y - 1) % 400 * 365 + (y - 1) % 400 / 4 - (y - 1) % 400 / 100 + 365) - 305)
        ((y - 1) / 400) ((y - 1) % 400) 365 (by omega) (by norm_num) (by omega)
        (yoe365 ((y - 1) % 400) (by omega) (by omega) (by omega))
      rw [hdim, hn0, hev]
      norm_num [Prod.mk.injEq]
      omega
    · have hl2 := hl
      unfold isLeap at hl2
      simp only [Bool.or_eq_true, Bool.and_eq_true, beq_iff_eq, bne_iff_ne, decide_eq_true_eq] at hl2
      have hdim : daysInMonth y 2 = 28 := by
        unfold daysInMonth; simp [hl]
      have hn0 : daysFromCivil y 2 28 =
          (y - 1) / 400 * 146097 + ((y - 1) % 400 * 365 + (y - 1) % 400 / 4 - (y - 1) % 400 / 100 + 364) - 305 := by
        unfold daysFromCivil; norm_num
      have hev := cfd_at ((y - 1) / 400 * 146097 + ((y - 1) % 400 * 365 + (y - 1) % 400 / 4 - (y - 1) % 400 / 100 + 364) - 305)
        ((y - 1) / 400) ((y - 1) % 400) 364 (by omega) (by norm_num) (by omega)
        (yoe364 ((y - 1) % 400) (by omega))
      rw [hdim, hn0, hev]
      norm_num [Prod.mk.injEq]
      omega
  · have hdim : daysInMonth y 3 = 31 := by
      unfold daysInMonth isLeap; norm_num
    have hn0 : daysFromCivil y 3 31 =
        y / 400 * 146097 + (y % 400 * 365 + y % 400 / 4 - y % 400 / 100 + 30) - 305 := by
      unfold daysFromCivil; norm_num
    have hev := cfd_at (y / 400 * 146097 + (y % 400 * 365 + y % 400 / 4 - y % 400 / 100 + 30) - 305)
      (y / 400) (y % 400) 30 (by omega) (by norm_num) (by omega)
      (by omega)
    rw [hdim, hn0, hev]
    norm_num [Prod.mk.injEq]
    omega
  · have hdim : daysInMonth y 4 = 30 := by
      unfold daysInMonth isLeap; norm_num
    have hn0 : daysFromCivil y 4 30 =
        y / 400 * 146097 + (y % 400 * 365 + y % 400 / 4 - y % 400 / 100 + 60) - 305 := by
      unfold daysFromCivil; norm_num
    have hev := cfd_at (y / 400 * 146097 + (y % 400 * 365 + y % 400 / 4 - y % 400 / 100 + 60) - 305)
      (y / 400) (y % 400) 60 (by omega) (by norm_num) (by omega)
      (by omega)
    rw [hdim, hn0, hev]
    norm_num [Prod.mk.injEq]
    omega
  · have hdim : daysInMonth y 5 = 31 := by
      unfold daysInMonth isLeap; norm_num
    have hn0 : daysFromCivil y 5 31 =
        y / 400 * 146097 + (y % 400 * 365 + y % 400 / 4 - y % 400 / 100 + 91) - 305 := by
      unfold daysFromCivil; norm_num
    have hev := cfd_at (y / 400 * 146097 + (y % 400 * 365 + y % 400 / 4 - y % 400 / 100 + 91) - 305)
      (y / 400) (y % 400) 91 (by omega) (by norm_num) (by omega)
      (by omega)
    rw [hdim, hn0, hev]
    norm_num [Prod.mk.injEq]
    omega
  · have hdim : daysInMonth y 6 = 30 := by
      unfold daysInMonth isLeap; norm_num
    have hn0 : daysFromCivil y 6 30 =
        y / 400 * 146097 + (y % 400 * 365 + y % 400 / 4 - y % 400 / 100 + 121) - 305 := by
      unfold daysFromCivil; norm_num
    have hev := cfd_at (y / 400 * 146097 + (y % 400 * 365 + y % 400 / 4 - y % 400 / 100 + 121) - 305)
      (y / 400) (y % 400) 121 (by omega) (by norm_num) (by omega)
      (by omega)
    rw [hdim, hn0, hev]
    norm_num [Prod.mk.injEq]
    omega
  · have hdim : daysInMonth y 7 = 31 := by
      unfold daysInMonth isLeap; norm_num
    have hn0 : daysFromCivil y 7 31 =
        y / 400 * 146097 + (y % 400 * 365 + y % 400 / 4 - y % 400 / 100 + 152) - 305 := by
      unfold daysFromCivil; norm_num
    have hev := cfd_at (y / 400 * 146097 + (y % 400 * 365 + y % 400 / 4 - y % 400 / 100 + 152) - 305)
      (y / 400) (y % 400) 152 (by omega) (by norm_num) (by omega)
      (by omega)
    rw [hdim, hn0, hev]
    norm_num [Prod.mk.injEq]
    omega
  · have hdim : daysInMonth y 8 = 31 := by
      unfold daysInMonth isLeap; norm_num
    have hn0 : daysFromCivil y 8 31 =
        y / 400 * 146097 + (y % 400 * 365 + y % 400 / 4 - y % 400 / 100 + 183) - 305 := by
      unfold daysFromCivil; norm_num
    have hev := cfd_at (y / 400 * 146097 + (y % 400 * 365 + y % 400 / 4 - y % 400 / 100 + 183) - 305)
      (y / 400) (y % 400) 183 (by omega) (by norm_num) (by omega)
      (by omega)
    rw [hdim, hn0, hev]
    norm_num [Prod.mk.injEq]
    omega
  · have hdim : daysInMonth y 9 = 30 := by
      unfold daysInMonth isLeap; norm_num
    have hn0 : daysFromCivil y 9 30 =
        y / 400 * 146097 + (y % 400 * 365 + y % 400 / 4 - y % 400 / 100 + 213) - 305 := by
      unfold daysFromCivil; norm_num
    have hev := cfd_at (y / 400 * 146097 + (y % 400 * 365 + y % 400 / 4 - y % 400 / 100 + 213) - 305)
      (y / 400) (y % 400) 213 (by omega) (by norm_num) (by omega)
      (by omega)
    rw [hdim, hn0, hev]
    norm_num [Prod.mk.injEq]
    omega
  · have hdim : daysInMonth y 10 = 31 := by
      unfold daysInMonth isLeap; norm_num
    have hn0 : daysFromCivil y 10 31 =
        y / 400 * 146097 + (y % 400 * 365 + y % 400 / 4 - y % 400 / 100 + 244) - 305 := by
      unfold daysFromCivil; norm_num
    have hev := cfd_at (y / 400 * 146097 + (y % 400 * 365 + y % 400 / 4 - y % 400 / 100 + 244) - 305)
      (y / 400) (y % 400) 244 (by omega) (by norm_num) (by omega)
      (by omega)
    rw [hdim, hn0, hev]
    norm_num [Prod.mk.injEq]
    omega
  · have hdim : daysInMonth y 11 = 30 := by
      unfold daysInMonth isLeap; norm_num
    have hn0 : daysFromCivil y 11 30 =
        y / 400 * 146097 + (y % 400 * 365 + y % 400 / 4 - y % 400 / 100 + 274) - 305 := by
      unfold daysFromCivil; norm_num
    have hev := cfd_at (y / 400 * 146097 + (y % 400 * 365 + y % 400 / 4 - y % 400 / 100 + 274) - 305)
      (y / 400) (y % 400) 274 (by omega) (by norm_num) (by omega)
      (by omega)
    rw [hdim, hn0, hev]
    norm_num [Prod.mk.injEq]
    omega
  · have hdim : daysInMonth y 12 = 31 := by
      unfold daysInMonth isLeap; norm_num
    have hn0 : daysFromCivil y 12 31 =
        y / 400 * 146097 + (y % 400 * 365 + y % 400 / 4 - y % 400 / 100 + 305) - 305 := by
      unfold daysFromCivil; norm_num
    have hev := cfd_at (y / 400 * 146097 + (y % 400 * 365 + y % 400 / 4 - y % 400 / 100 + 305) - 305)
      (y / 400) (y % 400) 305 (by omega) (by norm_num) (by omega)
      (by omega)
    rw [hdim, hn0, hev]
    norm_num [Prod.mk.injEq]
    omega

/-- Every day number has linearised month index at least 11 (month 11 is
December of year 0, the month of day 0). -/
theorem monthLow (n : Nat) : 11 ≤ monthIdx n := by
  have hM : 1 ≤ cfdM n := by unfold cfdM cfdMp; split_ifs <;> omega
  unfold monthIdx civilFromDays
  dsimp only
  by_cases hc : cfdM n ≤ 2
  · rw [if_pos hc]; omega
  · rw [if_neg hc]
    by_cases hez : 1 ≤ 400 * cfdEra n + cfdYoe n
    · omega
    · have he0 : cfdEra n = 0 := by omega
      have hy0 : cfdYoe n = 0 := by omega
      have hdoe : cfdDoe n ≤ 366 := by
        have := hy0
        unfold cfdYoe at this
        omega
      have hdoe2 : 305 ≤ cfdDoe n := by
        unfold cfdDoe cfdEra at *
        omega
      have hdoy : cfdDoy n = cfdDoe n := by
        unfold cfdDoy; rw [hy0]; omega
      have hmp : cfdMp n = 9 ∨ (10 ≤ cfdMp n ∧ cfdMp n ≤ 11) := by
        unfold cfdMp; rw [hdoy]; omega
      have hm12 : cfdM n = 12 := by
        rcases hmp with h | h
        · unfold cfdM
          rw [h, if_pos (by norm_num : (9:Nat) < 10)]
        · exfalso
          have hv : cfdM n = cfdMp n - 9 := by
            unfold cfdM; rw [if_neg (by omega)]
          omega
      omega

/-- The weekly bucket of a weekly bucket label is the bucket itself. -/
theorem weekRT (b : Nat) : bucketIdx Period.week (bucketLabel Period.week b) = b := by
  simp only [bucketIdx, bucketLabel]
  omega

/-- The monthly bucket of a monthly bucket label is the bucket itself
(for every month index that a day number can have). -/
theorem monthRT (b : Nat) (hb : 11 ≤ b) :
    bucketIdx Period.month (bucketLabel Period.month b) = b := by
  have h := monthEnd_civil (b / 12) (b % 12 + 1) (by omega) (by omega) (by omega)
  simp only [bucketIdx, bucketLabel, monthIdx]
  rw [h]
  dsimp only
  omega

/-- The yearly bucket of a yearly bucket label is the bucket itself. -/
theorem yearRT (b : Nat) : bucketIdx Period.year (bucketLabel Period.year b) = b := by
  have h := monthEnd_civil b 12 (by omega) (by omega) (Or.inr rfl)
  have hdim : daysInMonth b 12 = 31 := by unfold daysInMonth; norm_num
  rw [hdim] at h
  simp only [bucketIdx, bucketLabel, yearIdx]
  rw [h]

/-! ## List helper lemmas -/

theorem listMin_cons_isSome (x : Nat) (xs : List Nat) : ∃ a, listMin (x :: xs) = some a := by
  rcases hm : listMin xs with _ | m
  · exact ⟨x, by simp [listMin, hm]⟩
  · exact ⟨min x m, by simp [listMin, hm]⟩

theorem listMax_cons_isSome (x : Nat) (xs : List Nat) : ∃ a, listMax (x :: xs) = some a := by
  rcases hm : listMax xs with _ | m
  · exact ⟨x, by simp [listMax, hm]⟩
  · exact ⟨max x m, by simp [listMax, hm]⟩

theorem listMin_spec (l : List Nat) (a : Nat) (h : listMin l = some a) :
    a ∈ l ∧ ∀ b ∈ l, a ≤ b := by
  induction l generalizing a with
  | nil => simp [listMin] at h
  | cons n ns ih =>
      rcases hm : listMin ns with _ | m
      · cases ns with
        | nil =>
            simp [listMin] at h
            subst h
            simp
        | cons x xs =>
            rcases listMin_cons_isSome x xs with ⟨a2, ha2⟩
            rw [ha2] at hm
            cases hm
      · rw [listMin, hm] at h
        have ha : a = min n m := by cases h; rfl
        rcases ih m hm with ⟨hmem, hball⟩
        constructor
        · rcases Nat.le_total n m with hnm | hmn
          · have : a = n := by omega
            rw [this]; exact List.mem_cons_self n ns
          · have : a = m := by omega
            rw [this]; exact List.mem_cons_of_mem n hmem
        · intro b hb
          rcases List.mem_cons.mp hb with rfl | hb2
          · omega
          · have := hball b hb2
            omega

theorem listMax_spec (l : List Nat) (a : Nat) (h : listMax l = some a) :
    a ∈ l ∧ ∀ b ∈ l, b ≤ a := by
  induction l generalizing a with
  | nil => simp [listMax] at h
  | cons n ns ih =>
      rcases hm : listMax ns with _ | m
      · cases ns with
        | nil =>
            simp [listMax] at h
            subst h
            simp
        | cons x xs =>
            rcases listMax_cons_isSome x xs with ⟨a2, ha2⟩
            rw [ha2] at hm
            cases hm
      · rw [listMax, hm] at h
        have ha : a = max n m := by cases h; rfl
        rcases ih m hm with ⟨hmem, hball⟩
        constructor
        · rcases Nat.le_total n m with hnm | hmn
          · have : a = m := by omega
            rw [this]; exact List.mem_cons_of_mem n hmem
          · have : a = n := by omega
            rw [this]; exact List.mem_cons_self n ns
        · intro b hb
          rcases List.mem_cons.mp hb with rfl | hb2
          · omega
          · have := hball b hb2
            omega

theorem listMin_of_mem (l : List Nat) (a : Nat) (h : a ∈ l) :
    ∃ lo, listMin l = some lo ∧ lo ≤ a := by
  cases l with
  | nil => cases h
  | cons x xs =>
      rcases listMin_cons_isSome x xs with ⟨lo, hlo⟩
      exact ⟨lo, hlo, (listMin_spec _ lo hlo).2 a h⟩

theorem listMax_of_mem (l : List Nat) (a : Nat) (h : a ∈ l) :
    ∃ hi, listMax l = some hi ∧ a ≤ hi := by
  cases l with
  | nil => cases h
  | cons x xs =>
      rcases listMax_cons_isSome x xs with ⟨hi, hhi⟩
      exact ⟨hi, hhi, (listMax_spec _ hi hhi).2 a h⟩

/-! ## Resampler structure lemmas -/

theorem resampleEntity_eq (p : Period) (e : String) (df : List Row) (lo hi : Nat)
    (hlo : listMin ((entityRows df e).map (fun r => bucketIdx p r.date)) = some lo)
    (hhi : listMax ((entityRows df e).map (fun r => bucketIdx p r.date)) = some hi) :
    resampleEntity p e df = (List.range (hi + 1 - lo)).map (fun i =>
      { date := bucketLabel p (lo + i), entity := e,
        rate := meanOpt ((bucketRows p (entityRows df e) (lo + i)).map Row.rate) }) := by
  unfold resampleEntity
  rw [hlo, hhi]

theorem resampleEntity_entity (p : Period) (e : String) (df : List Row) (r : Row)
    (h : r ∈ resampleEntity p e df) : r.entity = e := by
  unfold resampleEntity at h
  rcases hlo : listMin ((entityRows df e).map (fun r => bucketIdx p r.date)) with _ | lo <;>
    rcases hhi : listMax ((entityRows df e).map (fun r => bucketIdx p r.date)) with _ | hi <;>
    rw [hlo, hhi] at h <;> dsimp only at h
  · cases h
  · cases h
  · cases h
  · rcases List.mem_map.mp h with ⟨i, _, hr⟩
    rw [← hr]

theorem resample_ne_day (df : List Row) (p : Period) (hp : p ≠ Period.day) :
    resample df p = (entities df).flatMap (fun e => resampleEntity p e df) := by
  cases p with
  | day => exact absurd rfl hp
  | week => rfl
  | month => rfl
  | year => rfl

theorem entities_nodup (df : List Row) : (entities df).Nodup :=
  ((List.perm_insertionSort strLe _).nodup_iff).mpr (List.nodup_dedup _)

theorem mem_entities (df : List Row) (e : String) :
    e ∈ entities df ↔ ∃ r ∈ df, r.entity = e := by
  unfold entities
  rw [(List.perm_insertionSort strLe _).mem_iff, List.mem_dedup, List.mem_map]

theorem label_RT (p : Period) (d j : Nat) (hp : p ≠ Period.day) (hj : bucketIdx p d ≤ j) :
    bucketIdx p (bucketLabel p j) = j := by
  cases p with
  | day => exact absurd rfl hp
  | week => exact weekRT j
  | month => exact monthRT j (le_trans (monthLow d) hj)
  | year => exact yearRT j

theorem filter_flatMap_single (es : List String) (g : String → List Row) (e : String)
    (hno : es.Nodup) (he : e ∈ es)
    (hent : ∀ e2 r, r ∈ g e2 → r.entity = e2)
    (q : Row → Bool) :
    (es.flatMap g).filter (fun r => r.entity == e && q r) =
      (g e).filter (fun r => r.entity == e && q r) := by
  induction es with
  | nil => cases he
  | cons a as ih =>
      rw [List.flatMap_cons, List.filter_append]
      rcases List.mem_cons.mp he with rfl | hin
      · have hnot : e ∉ as := (List.nodup_cons.mp hno).1
        have h2 : (as.flatMap g).filter (fun r => r.entity == e && q r) = [] := by
          rw [List.filter_eq_nil_iff]
          intro r hr
          rcases List.mem_flatMap.mp hr with ⟨e2, he2, hrg⟩
          have hre : r.entity = e2 := hent e2 r hrg
          have hne : r.entity ≠ e := by
            rw [hre]
            intro hc
            exact hnot (hc ▸ he2)
          simp [hne]
        rw [h2, List.append_nil]
      · have hae : a ≠ e := by
          intro hc
          exact (List.nodup_cons.mp hno).1 (hc ▸ hin)
        have h1 : (g a).filter (fun r => r.entity == e && q r) = [] := by
          rw [List.filter_eq_nil_iff]
          intro r hr
          have hre : r.entity = a := hent a r hr
          have hne : r.entity ≠ e := by rw [hre]; exact hae
          simp [hne]
        rw [h1, List.nil_append]
        exact ih (List.nodup_cons.mp hno).2 hin

theorem resampleEntity_count (p : Period) (e : String) (df : List Row) (lo hi b : Nat)
    (hlo : listMin ((entityRows df e).map (fun r => bucketIdx p r.date)) = some lo)
    (hhi : listMax ((entityRows df e).map (fun r => bucketIdx p r.date)) = some hi)
    (hRT : ∀ j, lo ≤ j → j ≤ hi → bucketIdx p (bucketLabel p j) = j)
    (hb1 : lo ≤ b) (hb2 : b ≤ hi) :
    ((resampleEntity p e df).filter (fun r => bucketIdx p r.date == b)).length = 1 := by
  rw [resampleEntity_eq p e df lo hi hlo hhi]
  rw [← List.countP_eq_length_filter, List.countP_map]
  have hcong : ∀ i ∈ List.range (hi + 1 - lo),
      ((fun r => bucketIdx p r.date == b) ∘ (fun i =>
        ({ date := bucketLabel p (lo + i), entity := e,
           rate := meanOpt ((bucketRows p (entityRows df e) (lo + i)).map Row.rate) } : Row))) i =
      (fun i => i == b - lo) i := by
    intro i hi2
    have hi3 := List.mem_range.mp hi2
    dsimp only [Function.comp]
    rw [hRT (lo + i) (by omega) (by omega)]
    by_cases hc : lo + i = b
    · have h2 : i = b - lo := by omega
      have h3 : lo + i = b := hc
      simp [h3, h2]
      omega
    · have h2 : i ≠ b - lo := by omega
      simp [hc, h2]
  rw [List.countP_congr (fun a ha => by rw [hcong a ha]), ← List.count_eq_countP]
  exact List.count_eq_one_of_mem (List.nodup_range _) (List.mem_range.mpr (by omega))

theorem resampleEntity_rate (p : Period) (e : String) (df : List Row) (lo hi b : Nat)
    (hlo : listMin ((entityRows df e).map (fun r => bucketIdx p r.date)) = some lo)
    (hhi : listMax ((entityRows df e).map (fun r => bucketIdx p r.date)) = some hi)
    (hRT : ∀ j, lo ≤ j → j ≤ hi → bucketIdx p (bucketLabel p j) = j)
    (r : Row) (hr : r ∈ resampleEntity p e df) (hrb : bucketIdx p r.date = b) :
    r.rate = meanOpt ((bucketRows p (entityRows df e) b).map Row.rate) := by
  rw [resampleEntity_eq p e df lo hi hlo hhi] at hr
  rcases List.mem_map.mp hr with ⟨i, him, hreq⟩
  have hi3 := List.mem_range.mp him
  rw [← hreq] at hrb ⊢
  dsimp only at hrb ⊢
  rw [hRT (lo + i) (by omega) (by omega)] at hrb
  rw [hrb]

theorem resampleEntity_mem (p : Period) (e : String) (df : List Row) (lo hi j : Nat)
    (hlo : listMin ((entityRows df e).map (fun r => bucketIdx p r.date)) = some lo)
    (hhi : listMax ((entityRows df e).map (fun r => bucketIdx p r.date)) = some hi)
    (hj1 : lo ≤ j) (hj2 : j ≤ hi) :
    ({ date := bucketLabel p j, entity := e,
       rate := meanOpt ((bucketRows p (entityRows df e) j).map Row.rate) } : Row)
      ∈ resampleEntity p e df := by
  rw [resampleEntity_eq p e df lo hi hlo hhi]
  refine List.mem_map.mpr ⟨j - lo, List.mem_range.mpr (by omega), ?_⟩
  have hjl : lo + (j - lo) = j := by omega
  rw [hjl]

theorem bucket_nonempty_bounds (p : Period) (e : String) (df : List Row) (b : Nat)
    (hne : bucketRows p (entityRows df e) b ≠ []) :
    ∃ lo hi, listMin ((entityRows df e).map (fun r => bucketIdx p r.date)) = some lo ∧
      listMax ((entityRows df e).map (fun r => bucketIdx p r.date)) = some hi ∧
      lo ≤ b ∧ b ≤ hi := by
  rcases List.exists_mem_of_ne_nil _ hne with ⟨r0, hr0⟩
  have hr0m := List.mem_filter.mp hr0
  have hbm : b ∈ (entityRows df e).map (fun r => bucketIdx p r.date) :=
    List.mem_map.mpr ⟨r0, hr0m.1, of_decide_eq_true hr0m.2⟩
  rcases listMin_of_mem _ b hbm with ⟨lo, hlo, hlob⟩
  rcases listMax_of_mem _ b hbm with ⟨hi, hhi, hbhi⟩
  exact ⟨lo, hi, hlo, hhi, hlob, hbhi⟩

theorem listMin_attained (p : Period) (e : String) (df : List Row) (lo : Nat)
    (hlo : listMin ((entityRows df e).map (fun r => bucketIdx p r.date)) = some lo) :
    ∃ rm, rm ∈ entityRows df e ∧ bucketIdx p rm.date = lo := by
  have hmem := (listMin_spec _ lo hlo).1
  rcases List.mem_map.mp hmem with ⟨rm, h1, h2⟩
  exact ⟨rm, h1, h2⟩

/-! ## Store, summary and rounding lemmas -/

theorem keepLast_subset (l : List Row) (r : Row) (h : r ∈ keepLastByEntity l) : r ∈ l := by
  induction l with
  | nil => cases h
  | cons x xs ih =>
      rw [keepLastByEntity] at h
      by_cases hany : xs.any (fun r2 => r2.entity == x.entity)
      · rw [if_pos hany] at h
        exact List.mem_cons_of_mem x (ih h)
      · rw [if_neg hany] at h
        rcases List.mem_cons.mp h with hx | h2
        · rw [hx]
          exact List.mem_cons_self x xs
        · exact List.mem_cons_of_mem x (ih h2)

theorem keepLast_count (l : List Row) (e : String) (he : ∃ r ∈ l, r.entity = e) :
    ((keepLastByEntity l).filter (fun r => r.entity == e)).length = 1 := by
  induction l with
  | nil =>
      rcases he with ⟨r, h, _⟩
      cases h
  | cons x xs ih =>
      rw [keepLastByEntity]
      by_cases hany : xs.any (fun r2 => r2.entity == x.entity)
      · rw [if_pos hany]
        apply ih
        rcases he with ⟨r, hrm, hre⟩
        rcases List.mem_cons.mp hrm with rfl | h2
        · rcases List.any_eq_true.mp hany with ⟨r2, hr2, hr2e⟩
          exact ⟨r2, hr2, by rw [beq_iff_eq] at hr2e; rw [hr2e, hre]⟩
        · exact ⟨r, h2, hre⟩
      · rw [if_neg hany]
        rw [List.filter_cons]
        by_cases hxe : x.entity = e
        · rw [if_pos (by simp [hxe])]
          have hrest : (keepLastByEntity xs).filter (fun r => r.entity == e) = [] := by
            rw [List.filter_eq_nil_iff]
            intro r hr
            have hrxs := keepLast_subset xs r hr
            have : ¬(r.entity = x.entity) := by
              intro hc
              exact hany (List.any_eq_true.mpr ⟨r, hrxs, by simp [hc]⟩)
            simp [hxe ▸ this]
          rw [hrest]
          rfl
        · rw [if_neg (by simp [hxe])]
          apply ih
          rcases he with ⟨r, hrm, hre⟩
          rcases List.mem_cons.mp hrm with rfl | h2
          · exact absurd hre hxe
          · exact ⟨r, h2, hre⟩

theorem keepLast_max (l : List Row)
    (hs : List.Pairwise (fun a b => a.date ≤ b.date) l) (r : Row)
    (hr : r ∈ keepLastByEntity l) (r2 : Row) (h2 : r2 ∈ l) (he : r2.entity = r.entity) :
    r2.date ≤ r.date := by
  induction l with
  | nil => cases h2
  | cons x xs ih =>
      have hps := List.pairwise_cons.mp hs
      rw [keepLastByEntity] at hr
      by_cases hany : xs.any (fun r3 => r3.entity == x.entity)
      · rw [if_pos hany] at hr
        rcases List.mem_cons.mp h2 with rfl | h3
        · exact hps.1 r (keepLast_subset xs r hr)
        · exact ih hps.2 hr h3
      · rw [if_neg hany] at hr
        rcases List.mem_cons.mp hr with rfl | hr2
        · rcases List.mem_cons.mp h2 with rfl | h3
          · exact le_refl _
          · exact absurd (List.any_eq_true.mpr ⟨r2, h3, by simp [he]⟩) hany
        · rcases List.mem_cons.mp h2 with rfl | h3
          · exact hps.1 r (keepLast_subset xs r hr2)
          · exact ih hps.2 hr2 h3

theorem unique_row_filter_le_one (df : List Row) (hu : UniqueRowKeys df) (e : String) (d : Nat) :
    (df.filter (fun r => r.entity == e && r.date == d)).length ≤ 1 := by
  induction df with
  | nil => simp
  | cons a as ih =>
      have hp := List.pairwise_cons.mp hu
      rw [List.filter_cons]
      by_cases hc : (a.entity == e && a.date == d) = true
      · rw [if_pos hc]
        simp only [Bool.and_eq_true, beq_iff_eq] at hc
        have hrest : as.filter (fun r => r.entity == e && r.date == d) = [] := by
          rw [List.filter_eq_nil_iff]
          intro r hrm
          have hnk := hp.1 r hrm
          simp only [Bool.and_eq_true, beq_iff_eq, not_and]
          intro h1 h2
          exact hnk ⟨by rw [hc.2, h2], by rw [hc.1, h1]⟩
        rw [hrest]
        simp
      · rw [if_neg hc]
        exact ih hp.2

theorem unique_srow_filter_le_one (s : List SRow) (hu : UniqueKeys s) (e : String) (d : Nat) :
    (s.filter (fun r => r.date == d && r.entity == e)).length ≤ 1 := by
  induction s with
  | nil => simp
  | cons a as ih =>
      have hp := List.pairwise_cons.mp hu
      rw [List.filter_cons]
      by_cases hc : (a.date == d && a.entity == e) = true
      · rw [if_pos hc]
        simp only [Bool.and_eq_true, beq_iff_eq] at hc
        have hrest : as.filter (fun r => r.date == d && r.entity == e) = [] := by
          rw [List.filter_eq_nil_iff]
          intro r hrm
          have hnk := hp.1 r hrm
          simp only [Bool.and_eq_true, beq_iff_eq, not_and]
          intro h1 h2
          exact hnk ⟨by rw [hc.1, h1], by rw [hc.2, h2]⟩
        rw [hrest]
        simp
      · rw [if_neg hc]
        exact ih hp.2

theorem hasKey_iff (s : List SRow) (d : Nat) (e : String) :
    hasKey s d e = true ↔ ∃ r ∈ s, r.date = d ∧ r.entity = e := by
  unfold hasKey
  rw [List.any_eq_true]
  constructor
  · rintro ⟨r, hm, hb⟩
    simp only [Bool.and_eq_true, beq_iff_eq] at hb
    exact ⟨r, hm, hb⟩
  · rintro ⟨r, hm, h1, h2⟩
    exact ⟨r, hm, by simp [h1, h2]⟩

theorem insertOrIgnore_unique (s : List SRow) (r : SRow) (hu : UniqueKeys s) :
    UniqueKeys (insertOrIgnore s r) := by
  unfold insertOrIgnore
  by_cases hk : hasKey s r.date r.entity = true
  · rw [if_pos hk]
    exact hu
  · rw [if_neg hk]
    unfold UniqueKeys
    rw [List.pairwise_append]
    refine ⟨hu, List.pairwise_singleton _ _, ?_⟩
    intro a ha b hb
    have hb2 : b = r := List.mem_singleton.mp hb
    intro hc
    exact hk ((hasKey_iff s r.date r.entity).mpr ⟨a, ha, hb2 ▸ hc.1, hb2 ▸ hc.2⟩)

theorem insertMany_unique (rows : List SRow) (s : List SRow) (hu : UniqueKeys s) :
    UniqueKeys (insertMany s rows) := by
  induction rows generalizing s with
  | nil => exact hu
  | cons r rs ih => exact ih (insertOrIgnore s r) (insertOrIgnore_unique s r hu)

theorem meanOpt_singleton (o : Option ℚ) : meanOpt [o] = o := by
  cases o with
  | none => rfl
  | some v => simp [meanOpt]

theorem pyRound_ge_floor (x : ℚ) : ⌊x⌋ ≤ pyRound x := by
  unfold pyRound
  split_ifs <;> omega

/-- Every rate seeded by `seed_initial_data` is positive, whatever the noise
draw: the max floors the pre-rounding value at 0.1 and banker's rounding
cannot go below the floor of the scaled value. -/
theorem seededRate_pos (base trend noise2 : ℚ) : 0 < seededRate base trend noise2 := by
  unfold seededRate pyRound3
  have h1 : (1 / 10 : ℚ) ≤ max (1 / 10) (base + trend + noise2) := le_max_left _ _
  have h2 : (100 : ℚ) ≤ max (1 / 10) (base + trend + noise2) * 1000 := by nlinarith
  have h3 : (100 : ℤ) ≤ ⌊max (1 / 10) (base + trend + noise2) * 1000⌋ :=
    Int.le_floor.mpr (by exact_mod_cast h2)
  have h4 := pyRound_ge_floor (max (1 / 10) (base + trend + noise2) * 1000)
  have h5 : (0 : ℚ) < (pyRound (max (1 / 10) (base + trend + noise2) * 1000) : ℚ) := by
    have : (0 : ℤ) < pyRound (max (1 / 10) (base + trend + noise2) * 1000) := by omega
    exact_mod_cast this
  positivity

/-- Under (date, entity) uniqueness a non-empty one-day bucket of one entity
is exactly the one row with that key. -/
theorem unique_bucket_singleton (df : List Row) (e : String) (b : Nat)
    (r : Row) (hre : r.entity = e) (hrd : r.date = b) :
    UniqueRowKeys df → r ∈ df →
      bucketRows Period.day (entityRows df e) b = [r] := by
  unfold bucketRows entityRows
  rw [List.filter_filter]
  induction df with
  | nil =>
      intro _ hr
      cases hr
  | cons a as ih =>
      intro hu hr
      have hp := List.pairwise_cons.mp hu
      rw [List.filter_cons]
      rcases List.mem_cons.mp hr with ha | has
      · rw [if_pos (by simp [bucketIdx, ← ha, hre, hrd])]
        have hrest : as.filter (fun x =>
            decide (bucketIdx Period.day x.date = b) && decide (x.entity = e)) = [] := by
          rw [List.filter_eq_nil_iff]
          intro x hx
          have hnk := hp.1 x hx
          simp only [bucketIdx, Bool.and_eq_true, decide_eq_true_eq, not_and]
          intro h1 h2
          exact hnk ⟨by rw [← ha, hrd, h1], by rw [← ha, hre, h2]⟩
        rw [hrest, ← ha]
      · rw [if_neg ?_]
        · exact ih hp.2 has
        · have hnk := hp.1 r has
          simp only [bucketIdx, Bool.and_eq_true, decide_eq_true_eq, not_and]
          intro h1 h2
          exact hnk ⟨by rw [h1, hrd], by rw [h2, hre]⟩

/-! ## Claim theorems -/

/-- C5: resampling with the 日足 (raw/daily) granularity is the identity on
the loaded dataframe: the code's resampling step has no branch for 日足, so
the dataframe passes through unchanged — same rows, same order. -/
theorem resample_day_identity (df : List Row) : resample df Period.day = df := rfl

/-- C8: the resampling step is deterministic — it is a pure function of the
input dataframe and the chosen granularity, so equal inputs give identical
output row sequences. -/
theorem resample_deterministic (df1 df2 : List Row) (p1 p2 : Period)
    (hdf : df1 = df2) (hp : p1 = p2) : resample df1 p1 = resample df2 p2 := by
  rw [hdf, hp]

/-- Witness for C8 at a concrete dataframe and period. -/
theorem resample_deterministic_witness :
    resample [⟨368, "A", some 1⟩] Period.week = resample [⟨368, "A", some 1⟩] Period.week :=
  resample_deterministic [⟨368, "A", some 1⟩] [⟨368, "A", some 1⟩] Period.week Period.week rfl rfl

/-- C1 (spec-modelled: the Personal Rate Calculator does not exist in
src/kinri.py): for every observation of the base entity and non-negative
discount, `derive` emits an observation with the same date, the fixed derived
label and rate `max(0, rate − discount)`; the derived rate is never negative,
a zero discount reproduces the original rate, and a discount at least the
rate yields exactly zero. -/
theorem derive_personal_rate (series : List SRow) (cfg : DiscountConfig)
    (hd : 0 ≤ cfg.discountAmount) (o : SRow) (ho : o ∈ series)
    (he : o.entity = cfg.baseEntity) (hr : 0 ≤ o.rate) :
    ({ date := o.date, entity := derivedLabel,
       rate := max 0 (o.rate - cfg.discountAmount) } : SRow) ∈ derive series cfg ∧
    0 ≤ max 0 (o.rate - cfg.discountAmount) ∧
    (cfg.discountAmount = 0 → max 0 (o.rate - cfg.discountAmount) = o.rate) ∧
    (cfg.discountAmount ≥ o.rate → max 0 (o.rate - cfg.discountAmount) = 0) := by
  refine ⟨?_, le_max_left _ _, ?_, ?_⟩
  · unfold derive
    exact List.mem_map.mpr ⟨o, List.mem_filter.mpr ⟨ho, by simp [he]⟩, rfl⟩
  · intro h0
    rw [h0, sub_zero]
    exact max_eq_right hr
  · intro hle
    exact max_eq_left (by linarith)

/-- Witness for C1: the spec's own example — rate 1.000, discount 0.500. -/
theorem derive_personal_rate_witness :
    ({ date := 739173, entity := derivedLabel,
       rate := max 0 ((1 : ℚ) - 1 / 2) } : SRow) ∈
      derive [{ date := 739173, entity := "BankA", rate := 1 }]
        { baseEntity := "BankA", discountAmount := 1 / 2 } ∧
    0 ≤ max 0 ((1 : ℚ) - 1 / 2) ∧
    ((1 / 2 : ℚ) = 0 → max 0 ((1 : ℚ) - 1 / 2) = 1) ∧
    ((1 / 2 : ℚ) ≥ 1 → max 0 ((1 : ℚ) - 1 / 2) = 0) :=
  derive_personal_rate [{ date := 739173, entity := "BankA", rate := 1 }]
    { baseEntity := "BankA", discountAmount := 1 / 2 } (by norm_num)
    { date := 739173, entity := "BankA", rate := 1 } (by simp) rfl (by norm_num)

/-- C10: every rate ever written to the store is strictly positive — seeded
rates are floored at 0.1 before rounding to three decimals, and the latest
fetch returns fixed constants, each at least 0.345. -/
theorem written_rates_positive (noise : Nat → String → ℚ) (startDate today : Nat) :
    (∀ r ∈ seedRecords noise startDate, 0 < r.rate) ∧
    (∀ r ∈ fetchLatestLendingRates today, 345 / 1000 ≤ r.rate ∧ 0 < r.rate) := by
  constructor
  · intro r hr
    unfold seedRecords at hr
    rcases List.mem_flatMap.mp hr with ⟨i, _, hmem⟩
    rcases List.mem_map.mp hmem with ⟨bk, _, hrq⟩
    rw [← hrq]
    exact seededRate_pos bk.2 (i * (5 / 100000)) (noise i bk.1)
  · intro r hr
    unfold fetchLatestLendingRates at hr
    simp only [List.mem_cons, List.not_mem_nil, or_false] at hr
    rcases hr with h | h | h | h <;> rw [h] <;> norm_num

/-- Witness for C10 at a zero noise draw: the first fetched rate. -/
theorem written_rates_positive_witness :
    (345 / 1000 : ℚ) ≤ ({ date := 0, entity := "日銀(基準)", rate := 1475 / 1000 } : SRow).rate ∧
    0 < ({ date := 0, entity := "日銀(基準)", rate := 1475 / 1000 } : SRow).rate :=
  (written_rates_positive (fun _ _ => 0) 0 0).2
    { date := 0, entity := "日銀(基準)", rate := 1475 / 1000 } (by simp [fetchLatestLendingRates])

/-- C6 counterexample: `main` wraps the database read in no try/except, so a
failing load is not converted to a display state — the exception leaves the
load-resample-present pipeline uncaught, which is neither the chart state nor
the no-data error display. -/
theorem runMain_error_counterexample :
    runMain (Except.error "database unavailable") Period.day =
      RenderOutcome.uncaught "database unavailable" ∧
    runMain (Except.error "database unavailable") Period.day ≠ RenderOutcome.noData :=
  ⟨rfl, fun h => RenderOutcome.noConfusion h⟩

/-- C6 (amended): a load failure is not caught inside the app code and
propagates out of the pipeline to the hosting process; a valid load that
yields zero rows is surfaced as the distinct データがありません no-data
display state rather than a crash. -/
theorem runMain_error_and_empty :
    (∀ e p, runMain (Except.error e) p = RenderOutcome.uncaught e) ∧
    (∀ p, runMain (Except.ok []) p = RenderOutcome.noData) := by
  constructor
  · intro e p
    rfl
  · intro p
    cases p <;> rfl

/-- C7: the load step `SELECT * FROM rates ORDER BY date ASC` returns every
persisted row exactly once (a permutation of the store) sorted by date
ascending, so any two consecutive result rows have non-decreasing dates. -/
theorem loadQuery_sorted (store : List SRow) :
    (loadQuery store).Perm store ∧ List.Sorted dateLe (loadQuery store) ∧
    ∀ i : Nat, (h : i + 1 < (loadQuery store).length) →
      ((loadQuery store).get ⟨i, Nat.lt_of_succ_lt h⟩).date ≤
      ((loadQuery store).get ⟨i + 1, h⟩).date := by
  refine ⟨List.perm_insertionSort dateLe store, List.sorted_insertionSort dateLe store, ?_⟩
  intro i h
  exact List.pairwise_iff_get.mp (List.sorted_insertionSort dateLe store)
    ⟨i, Nat.lt_of_succ_lt h⟩ ⟨i + 1, h⟩ (by simp)

/-- Witness for C7 at a concrete two-row store given in descending order. -/
theorem loadQuery_sorted_witness :
    (loadQuery [⟨739173, "A", 1⟩, ⟨739172, "B", 2⟩]).Perm
      [⟨739173, "A", 1⟩, ⟨739172, "B", 2⟩] ∧
    ((loadQuery [⟨739173, "A", 1⟩, ⟨739172, "B", 2⟩]).get
        ⟨0, Nat.lt_of_succ_lt (by decide)⟩).date ≤
      ((loadQuery [⟨739173, "A", 1⟩, ⟨739172, "B", 2⟩]).get ⟨1, by decide⟩).date :=
  ⟨(loadQuery_sorted [⟨739173, "A", 1⟩, ⟨739172, "B", 2⟩]).1,
   (loadQuery_sorted [⟨739173, "A", 1⟩, ⟨739172, "B", 2⟩]).2.2 0 (by decide)⟩

/-- C3: the `rates` table holds at most one row per (date, bank_name) key;
`INSERT OR IGNORE` ingestion (seeding and refresh alike) preserves this
invariant, and ingesting the same row twice leaves exactly one row with that
key in the store. -/
theorem store_unique_and_idempotent (s : List SRow) (rows : List SRow) (r : SRow)
    (hu : UniqueKeys s) :
    UniqueKeys (insertMany s rows) ∧
    ((insertMany s [r, r]).filter
        (fun x => x.date == r.date && x.entity == r.entity)).length = 1 := by
  refine ⟨insertMany_unique rows s hu, ?_⟩
  show ((insertOrIgnore (insertOrIgnore s r) r).filter
      (fun x => x.date == r.date && x.entity == r.entity)).length = 1
  by_cases hk : hasKey s r.date r.entity = true
  · have h1 : insertOrIgnore s r = s := by unfold insertOrIgnore; rw [if_pos hk]
    rw [h1, h1]
    rcases (hasKey_iff s r.date r.entity).mp hk with ⟨a, ham, ha1, ha2⟩
    have hle := unique_srow_filter_le_one s hu r.entity r.date
    have hmem : a ∈ s.filter (fun x => x.date == r.date && x.entity == r.entity) :=
      List.mem_filter.mpr ⟨ham, by simp [ha1, ha2]⟩
    have hpos : 0 < (s.filter (fun x => x.date == r.date && x.entity == r.entity)).length :=
      List.length_pos.mpr (List.ne_nil_of_mem hmem)
    omega
  · have h1 : insertOrIgnore s r = s ++ [r] := by unfold insertOrIgnore; rw [if_neg hk]
    have hk2 : hasKey (s ++ [r]) r.date r.entity = true :=
      (hasKey_iff _ _ _).mpr ⟨r, by simp, rfl, rfl⟩
    have h2 : insertOrIgnore (s ++ [r]) r = s ++ [r] := by
      unfold insertOrIgnore; rw [if_pos hk2]
    rw [h1, h2, List.filter_append]
    have hs0 : s.filter (fun x => x.date == r.date && x.entity == r.entity) = [] := by
      rw [List.filter_eq_nil_iff]
      intro a ham
      simp only [Bool.and_eq_true, beq_iff_eq, not_and]
      intro h3 h4
      exact hk ((hasKey_iff s r.date r.entity).mpr ⟨a, ham, h3, h4⟩)
    rw [hs0, List.nil_append]
    simp

/-- Witness for C3: double ingestion of one row into the empty store. -/
theorem store_unique_and_idempotent_witness :
    UniqueKeys (insertMany [] [⟨739173, "A", 1⟩]) ∧
    ((insertMany [] [⟨739173, "A", (1 : ℚ)⟩, ⟨739173, "A", 1⟩]).filter
        (fun x => x.date == 739173 && x.entity == "A")).length = 1 :=
  store_unique_and_idempotent [] [⟨739173, "A", 1⟩] ⟨739173, "A", 1⟩ List.Pairwise.nil

/-- C9: in the latest-rate summary `df.sort_values(date).groupby(bank).tail(1)`
every entity present in the displayed table gets exactly one row, and that row
is a row of the table whose date is maximal among the entity's rows. -/
theorem latest_summary (df : List Row) (e : String) (he : ∃ r ∈ df, r.entity = e) :
    ((latestPerEntity df).filter (fun r => r.entity == e)).length = 1 ∧
    ∀ r ∈ latestPerEntity df, r.entity = e →
      r ∈ df ∧ ∀ r2 ∈ df, r2.entity = e → r2.date ≤ r.date := by
  have hperm := List.perm_insertionSort rdateLe df
  have hsorted : List.Pairwise (fun a b : Row => a.date ≤ b.date)
      (List.insertionSort rdateLe df) := List.sorted_insertionSort rdateLe df
  unfold latestPerEntity
  constructor
  · apply keepLast_count
    rcases he with ⟨r, hm, hre⟩
    exact ⟨r, hperm.mem_iff.mpr hm, hre⟩
  · intro r hr hre
    have hrs : r ∈ List.insertionSort rdateLe df := keepLast_subset _ r hr
    refine ⟨hperm.mem_iff.mp hrs, ?_⟩
    intro r2 h2 h2e
    exact keepLast_max _ hsorted r hr r2 (hperm.mem_iff.mpr h2) (by rw [h2e, hre])

/-- Witness for C9 on a concrete two-row table of one bank. -/
theorem latest_summary_witness :
    ((latestPerEntity [⟨739172, "A", some 1⟩, ⟨739173, "A", some 2⟩]).filter
        (fun r => r.entity == "A")).length = 1 ∧
    ∀ r ∈ latestPerEntity [⟨739172, "A", some 1⟩, ⟨739173, "A", some 2⟩],
      r.entity = "A" →
        r ∈ ([⟨739172, "A", some 1⟩, ⟨739173, "A", some 2⟩] : List Row) ∧
        ∀ r2 ∈ ([⟨739172, "A", some 1⟩, ⟨739173, "A", some 2⟩] : List Row),
          r2.entity = "A" → r2.date ≤ r.date :=
  latest_summary [⟨739172, "A", some 1⟩, ⟨739173, "A", some 2⟩] "A"
    ⟨⟨739172, "A", some 1⟩, by simp, rfl⟩

/-- C2 counterexample: pandas resampling fills gaps — with observations in
weeks 52 and 54 only, the output contains a row (dated 378, the Sunday of
week 53) for week bucket 53 even though no input observation falls in that
bucket, and NaN (none) as its rate.  So an empty calendar bucket inside the
observed span does produce an output row. -/
theorem resample_null_row_counterexample :
    ({ date := 378, entity := "A", rate := none } : Row) ∈
      resample [⟨368, "A", some 1⟩, ⟨382, "A", some 2⟩] Period.week ∧
    bucketRows Period.week
      (entityRows [⟨368, "A", some 1⟩, ⟨382, "A", some 2⟩] "A")
      (bucketIdx Period.week 378) = [] := by
  decide

/-- C2 (amended): for the Week/Month/Year granularities the resampler emits
exactly one output row per calendar bucket between the bucket of an entity's
first observation and the bucket of its last — including empty in-span
buckets, which get a NaN (none) rate — and no rows outside that span; only
buckets outside every entity's observed span produce no output row. -/
theorem resample_span_rows (df : List Row) (p : Period) (e : String) (lo hi : Nat)
    (hp : p ≠ Period.day)
    (hlo : listMin ((entityRows df e).map (fun r => bucketIdx p r.date)) = some lo)
    (hhi : listMax ((entityRows df e).map (fun r => bucketIdx p r.date)) = some hi) :
    ((resample df p).filter (fun r => r.entity == e)).length = hi + 1 - lo ∧
    ∀ j, lo ≤ j → j ≤ hi → bucketRows p (entityRows df e) j = [] →
      ({ date := bucketLabel p j, entity := e, rate := none } : Row) ∈ resample df p := by
  have he : e ∈ entities df := by
    rcases listMin_attained p e df lo hlo with ⟨rm, hrm, _⟩
    have hf := List.mem_filter.mp hrm
    exact (mem_entities df e).mpr ⟨rm, hf.1, of_decide_eq_true hf.2⟩
  rw [resample_ne_day df p hp]
  constructor
  · have hcongr : ((entities df).flatMap (fun e2 => resampleEntity p e2 df)).filter
        (fun r => r.entity == e) =
        ((entities df).flatMap (fun e2 => resampleEntity p e2 df)).filter
        (fun r => r.entity == e && (fun (_ : Row) => true) r) := by
      apply List.filter_congr
      intro r _
      simp
    rw [hcongr, filter_flatMap_single _ _ e (entities_nodup df) he
      (fun e2 r hr => resampleEntity_entity p e2 df r hr) _]
    have hall : (resampleEntity p e df).filter
        (fun r => r.entity == e && (fun (_ : Row) => true) r) = resampleEntity p e df := by
      rw [List.filter_eq_self]
      intro r hr
      simp [resampleEntity_entity p e df r hr]
    rw [hall, resampleEntity_eq p e df lo hi hlo hhi, List.length_map, List.length_range]
  · intro j hj1 hj2 hempty
    refine List.mem_flatMap.mpr ⟨e, he, ?_⟩
    have hm := resampleEntity_mem p e df lo hi j hlo hhi hj1 hj2
    rw [hempty] at hm
    exact hm

/-- Witness for C2 (amended) on the gap dataframe: three output rows for
weeks 52..54, and the empty week 53 yields the NaN row. -/
theorem resample_span_rows_witness :
    ((resample [⟨368, "A", some 1⟩, ⟨382, "A", some 2⟩] Period.week).filter
        (fun r => r.entity == "A")).length = 54 + 1 - 52 ∧
    ∀ j, 52 ≤ j → j ≤ 54 →
      bucketRows Period.week
        (entityRows [⟨368, "A", some 1⟩, ⟨382, "A", some 2⟩] "A") j = [] →
      ({ date := bucketLabel Period.week j, entity := "A", rate := none } : Row) ∈
        resample [⟨368, "A", some 1⟩, ⟨382, "A", some 2⟩] Period.week :=
  resample_span_rows [⟨368, "A", some 1⟩, ⟨382, "A", some 2⟩] Period.week "A" 52 54
    (by decide) (by decide) (by decide)


/-- C4 counterexample: the 日足 (Day) granularity performs no reduction at
all, so an input series holding two same-day rows of one entity leaves two
rows in that (entity, day-bucket) group instead of one reduced observation:
the claim fails for Day on series that violate (date, entity) uniqueness. -/
theorem resample_day_two_rows_counterexample :
    bucketRows Period.day (entityRows [⟨368, "A", some 1⟩, ⟨368, "A", some 2⟩] "A") 368 ≠ [] ∧
    ((resample [⟨368, "A", some 1⟩, ⟨368, "A", some 2⟩] Period.day).filter
        (fun r => r.entity == "A" && bucketIdx Period.day r.date == 368)).length = 2 := by
  decide


/-- C4 (amended): provided the input series has at most one observation per
(date, entity) — which every series loaded from the store satisfies, by its
UNIQUE constraint — resampling at any granularity reduces each non-empty
(entity, calendar-bucket) group to exactly one output observation whose rate
is the arithmetic mean of the group's rates (for Day the untouched single row
coincides with that mean). -/
theorem resample_bucket_mean (df : List Row) (p : Period) (e : String) (b : Nat)
    (hu : UniqueRowKeys df)
    (hne : bucketRows p (entityRows df e) b ≠ []) :
    ((resample df p).filter (fun r => r.entity == e && bucketIdx p r.date == b)).length = 1 ∧
    ∀ r ∈ resample df p, r.entity = e → bucketIdx p r.date = b →
      r.rate = meanOpt ((bucketRows p (entityRows df e) b).map Row.rate) := by
  by_cases hp : p = Period.day
  · subst hp
    have hday : resample df Period.day = df := rfl
    rcases List.exists_mem_of_ne_nil _ hne with ⟨r0, hr0⟩
    have h1 := List.mem_filter.mp hr0
    have h2 := List.mem_filter.mp h1.1
    have hr0e : r0.entity = e := of_decide_eq_true h2.2
    have hr0d : r0.date = b := of_decide_eq_true h1.2
    constructor
    · rw [hday]
      simp only [bucketIdx]
      have hle := unique_row_filter_le_one df hu e b
      have hmem : r0 ∈ df.filter (fun r => r.entity == e && r.date == b) :=
        List.mem_filter.mpr ⟨h2.1, by simp [hr0e, hr0d]⟩
      have hpos : 0 < (df.filter (fun r => r.entity == e && r.date == b)).length :=
        List.length_pos.mpr (List.ne_nil_of_mem hmem)
      omega
    · intro r hr hre hrb
      rw [hday] at hr
      have hrd : r.date = b := hrb
      rw [unique_bucket_singleton df e b r hre hrd hu hr]
      exact (meanOpt_singleton r.rate).symm
  · rcases bucket_nonempty_bounds p e df b hne with ⟨lo, hi, hlo, hhi, hb1, hb2⟩
    rcases listMin_attained p e df lo hlo with ⟨rm, hrm, hrmb⟩
    have hRT : ∀ j, lo ≤ j → j ≤ hi → bucketIdx p (bucketLabel p j) = j := by
      intro j hj1 hj2
      exact label_RT p rm.date j hp (by rw [hrmb]; exact hj1)
    have he : e ∈ entities df := by
      have hf := List.mem_filter.mp hrm
      exact (mem_entities df e).mpr ⟨rm, hf.1, of_decide_eq_true hf.2⟩
    constructor
    · rw [resample_ne_day df p hp,
        filter_flatMap_single _ _ e (entities_nodup df) he
          (fun e2 r hr => resampleEntity_entity p e2 df r hr) _]
      have hdrop : (resampleEntity p e df).filter
          (fun r => r.entity == e && bucketIdx p r.date == b) =
          (resampleEntity p e df).filter (fun r => bucketIdx p r.date == b) := by
        apply List.filter_congr
        intro r hr
        simp [resampleEntity_entity p e df r hr]
      rw [hdrop]
      exact resampleEntity_count p e df lo hi b hlo hhi hRT hb1 hb2
    · intro r hr hre hrb
      rw [resample_ne_day df p hp] at hr
      rcases List.mem_flatMap.mp hr with ⟨e2, he2, hr2⟩
      have he2e : e2 = e := by
        rw [← resampleEntity_entity p e2 df r hr2, hre]
      subst he2e
      exact resampleEntity_rate p e2 df lo hi b hlo hhi hRT r hr2 hrb


/-- Witness for C4 (amended): two observations in one week average to their
mean. -/
theorem resample_bucket_mean_witness :
    ((resample [⟨368, "A", some 1⟩, ⟨369, "A", some 3⟩] Period.week).filter
        (fun r => r.entity == "A" && bucketIdx Period.week r.date == 52)).length = 1 ∧
    ∀ r ∈ resample [⟨368, "A", some 1⟩, ⟨369, "A", some 3⟩] Period.week,
      r.entity = "A" → bucketIdx Period.week r.date = 52 →
        r.rate = meanOpt ((bucketRows Period.week
          (entityRows [⟨368, "A", some 1⟩, ⟨369, "A", some 3⟩] "A") 52).map Row.rate) :=
  resample_bucket_mean [⟨368, "A", some 1⟩, ⟨369, "A", some 3⟩] Period.week "A" 52
    (by unfold UniqueRowKeys; decide) (by decide)
